import Mathlib

/-!
Shallow embedding of the epd-waveshare framebuffer / partial-frame algebra
(src/graphics.rs) and of the EPD 7.5 inch V2 device protocol driver
(src/epd7in5_v2/mod.rs).

Machine integers (u8, u16, u32, usize) are embedded as Nat; byte buffers as
List Nat; points from embedded-graphics (i32 coordinates) as Int pairs.
Fallible operations (Rust panics on underflow or on a failed contract check)
return Option or Except. Bus traffic of the device driver is modelled as a
transcript of events, since the hardware interface is an external collaborator.
-/

namespace EpdWaveshare

/-- Display rotation, only 90 degree increments supported
(enum DisplayRotation in src/graphics.rs). -/
inductive DisplayRotation where
  | Rotate0
  | Rotate90
  | Rotate180
  | Rotate270
deriving DecidableEq, Repr

/-- count the number of bytes per line knowing that it may contains padding
bits (const fn line_bytes in src/graphics.rs). -/
def line_bytes (width : Nat) (bits_per_pixel : Nat) : Nat :=
  (width * bits_per_pixel + 7) / 8

/-- The ColorType trait interface: per-plane bit width, number of bit planes,
and the mask/pattern function used by set_pixel. -/
structure ColorTypeSpec (C : Type) where
  bits_per_pixel_per_buffer : Nat
  buffer_count : Nat
  bitmask : C → Bool → Nat → Nat × Nat

/-- The monochrome color type (Black and White). Its definition lives in
src/color.rs which is not part of the staged sources. -/
inductive Color where
  | Black
  | White
deriving DecidableEq, Repr

/-- Modelled from the spec: the pixel-color abstraction of section 4.1 for the
monochrome family. It produces the byte mask of the bits not owned by the
pixel at position pos (bit 7 is the leftmost pixel of the byte) and the bit
pattern to OR in; White sets the bit, Black clears it, matching the
graphics_rotation tests of src/graphics.rs where Black.get_byte_value fills
the byte written by an 8 pixel black line on a zeroed buffer. -/
def Color.bitmask (c : Color) (_bwrbit : Bool) (pos : Nat) : Nat × Nat :=
  let bit := 0x80 >>> (pos % 8)
  match c with
  | .Black => (255 ^^^ bit, 0)
  | .White => (255 ^^^ bit, bit)

/-- The tri-color type (Black, White, Chromatic). Its definition lives in
src/color.rs which is not part of the staged sources. -/
inductive TriColor where
  | Black
  | White
  | Chromatic
deriving DecidableEq, Repr

/-- Modelled from the spec: the two-plane pixel-color abstraction of section
4.1. The low byte of the pattern goes to the black/white plane, the high byte
to the chromatic plane; the bwrbit polarity flag decides whether Chromatic
also sets the black/white plane bit. The values match the
graphics_set_pixel_tricolor tests of src/graphics.rs (bwrbit = false gives
bw 192 / chromatic 64 for White, Chromatic, Black in row 0; bwrbit = true
gives bw 128 / chromatic 64). -/
def TriColor.bitmask (c : TriColor) (bwrbit : Bool) (pos : Nat) : Nat × Nat :=
  let bit := 0x80 >>> (pos % 8)
  match c with
  | .Black => (255 ^^^ bit, 0)
  | .White => (255 ^^^ bit, bit)
  | .Chromatic => (255 ^^^ bit, if bwrbit then bit <<< 8 else (bit <<< 8) ||| bit)

/-- The ColorType instance for Color: one plane, one bit per pixel. -/
def ctColor : ColorTypeSpec Color :=
  { bits_per_pixel_per_buffer := 1, buffer_count := 1, bitmask := Color.bitmask }

/-- The ColorType instance for TriColor: two planes, one bit per pixel per
plane. -/
def ctTriColor : ColorTypeSpec TriColor :=
  { bits_per_pixel_per_buffer := 1, buffer_count := 2, bitmask := TriColor.bitmask }

/-- The rotation transform applied by set_pixel in src/graphics.rs to map the
caller point into physical coordinates of the buffer being written. -/
def rotatePoint (width height : Nat) (rotation : DisplayRotation)
    (point : Int × Int) : Int × Int :=
  match rotation with
  | .Rotate0 => (point.1, point.2)
  | .Rotate90 => ((width : Int) - 1 - point.2, point.1)
  | .Rotate180 => ((width : Int) - 1 - point.1, (height : Int) - 1 - point.2)
  | .Rotate270 => (point.2, (height : Int) - 1 - point.1)

/-- The free function set_pixel of src/graphics.rs, shared by Display,
VarDisplay and PartialFrame. It rotates the point, silently drops
out-of-range writes, then applies the color mask/pattern to the addressed
byte (and, for two-plane colors, to the byte at the same index in the second
half of the buffer). Rust u8 casts are embedded as explicit truncations. -/
def set_pixel (ct : ColorTypeSpec C) (buffer : List Nat) (width height : Nat)
    (rotation : DisplayRotation) (bwrbit : Bool)
    (pixel : (Int × Int) × C) : List Nat :=
  let point := pixel.1
  let color := pixel.2
  let xy := rotatePoint width height rotation point
  if xy.1 < 0 ∨ xy.1 ≥ (width : Int) ∨ xy.2 < 0 ∨ xy.2 ≥ (height : Int) then
    buffer
  else
    let index := xy.1.toNat * ct.bits_per_pixel_per_buffer / 8 +
      xy.2.toNat * line_bytes width ct.bits_per_pixel_per_buffer
    let mb := ct.bitmask color bwrbit xy.1.toNat
    if ct.buffer_count = 2 then
      let b1 := buffer.set index (((buffer.getD index 0) &&& mb.1) ||| (mb.2 &&& 0xFF))
      let index2 := index + buffer.length / 2
      b1.set index2 (((b1.getD index2 0) &&& mb.1) ||| ((mb.2 >>> 8) % 256))
    else
      buffer.set index (((buffer.getD index 0) &&& mb.1) ||| (mb.2 % 256))

/-- The PartialFrame view of src/graphics.rs: a detached byte-aligned
sub-buffer over a region of a parent framebuffer. The mutable borrow of the
parent buffer is embedded by storing the parent buffer in the structure and
threading it through the operations. -/
structure PartialFrame (C : Type) where
  original_x : Nat
  aligned_x : Nat
  y : Nat
  original_width : Nat
  aligned_width : Nat
  height : Nat
  bwrbit : Bool
  buffer : List Nat
  full_display_buffer : List Nat
  full_display_width : Nat
  full_display_size : Nat
  rotation : DisplayRotation
deriving DecidableEq, Repr

/-- Byte-aligned dimensions and coordinates of a partial frame
(struct PartialUpdateParameters in src/graphics.rs). -/
structure PartialUpdateParameters where
  x : Nat
  y : Nat
  width : Nat
  height : Nat
  buffer : List Nat
deriving DecidableEq, Repr

/-- PartialFrame::new of src/graphics.rs. The two u32 subtractions
(x + width - 1 and aligned_x_end - aligned_x) panic on underflow in Rust;
the embedding returns none in exactly those cases. The bit operations
x and NOT 0b111 (on u32, NOT 0b111 is 0xFFFFFFF8) and x_end OR 0b111 are kept
as Nat bitwise operations. The view buffer is created zero-filled. -/
def PartialFrame.new (ct : ColorTypeSpec C) (x y width height : Nat)
    (full_display_buffer : List Nat) (full_display_width : Nat)
    (full_display_size : Nat) (bwrbit : Bool) : Option (PartialFrame C) :=
  let aligned_x := x &&& 0xFFFFFFF8
  if x + width < 1 then none
  else
    let x_end := x + width - 1
    let aligned_x_end := x_end ||| 0b111
    if aligned_x_end < aligned_x then none
    else
      let aligned_width := aligned_x_end - aligned_x + 1
      let buffer_size := height *
        line_bytes aligned_width (ct.bits_per_pixel_per_buffer * ct.buffer_count)
      some
        { original_x := x
          aligned_x := aligned_x
          y := y
          original_width := width
          aligned_width := aligned_width
          height := height
          bwrbit := bwrbit
          buffer := List.replicate buffer_size 0
          full_display_buffer := full_display_buffer
          full_display_width := full_display_width
          full_display_size := full_display_size
          rotation := DisplayRotation.Rotate0 }

/-- PartialFrame::buffer_size of src/graphics.rs. -/
def PartialFrame.buffer_size (pf : PartialFrame C) : Nat :=
  pf.buffer.length

/-- PartialFrame::set_rotation of src/graphics.rs. -/
def PartialFrame.set_rotation (pf : PartialFrame C) (rotation : DisplayRotation) :
    PartialFrame C :=
  { pf with rotation := rotation }

/-- PartialFrame::set_pixel of src/graphics.rs: offset the incoming point by
diff = original_x - aligned_x on the axis picked by the rotation (added for
Rotate0/Rotate90, subtracted for Rotate180/Rotate270), then delegate to the
free set_pixel against the view buffer with the aligned width. -/
def PartialFrame.set_pixel (ct : ColorTypeSpec C) (pf : PartialFrame C)
    (pixel : (Int × Int) × C) : PartialFrame C :=
  let diff : Int := ((pf.original_x - pf.aligned_x : Nat) : Int)
  let point := pixel.1
  let point2 : Int × Int :=
    match pf.rotation with
    | .Rotate0 => (point.1 + diff, point.2)
    | .Rotate90 => (point.1, point.2 + diff)
    | .Rotate180 => (point.1 - diff, point.2)
    | .Rotate270 => (point.1, point.2 - diff)
  { pf with
    buffer := EpdWaveshare.set_pixel ct pf.buffer pf.aligned_width pf.height pf.rotation
      pf.bwrbit (point2, pixel.2) }

/-- Copy the leftmost offset_pixels bits from src to dst
(fn copy_left_padding_bits in src/graphics.rs); the u8 complement NOT mask is
embedded as 255 XOR mask, the u8 shift 0xFF shl (8 - offset) with its
truncation as mod 256. -/
def copy_left_padding_bits (dst src offset_pixels : Nat) : Nat :=
  if offset_pixels = 0 then dst
  else
    let padding_mask := (0xFF <<< (8 - offset_pixels)) % 256
    (dst &&& (255 ^^^ padding_mask)) ||| (src &&& padding_mask)

/-- Copy the rightmost offset_pixels bits from src to dst
(fn copy_right_padding_bits in src/graphics.rs). -/
def copy_right_padding_bits (dst src offset_pixels : Nat) : Nat :=
  if offset_pixels = 0 then dst
  else
    let padding_mask := (1 <<< offset_pixels) - 1
    (dst &&& (255 ^^^ padding_mask)) ||| (src &&& padding_mask)

/-- Copy n bytes starting at srcStart of src over dst starting at dstStart
(the copy_from_slice call in PartialFrame::copy_and_sync_buffer). -/
def copyRange (src dst : List Nat) (srcStart dstStart n : Nat) : List Nat :=
  (List.range n).foldl (fun acc i => acc.set (dstStart + i) (src.getD (srcStart + i) 0)) dst

/-- One iteration of the row loop of PartialFrame::copy_and_sync_buffer:
patch the left and right padding bits of the row in the view buffer from the
parent, then copy the whole row back into the parent. Slice indexing of Rust
becomes base offsets full_display_start / partial_buffer_start added to every
index. The pair is (full display buffer, view buffer). -/
def PartialFrame.copy_and_sync_row (pf : PartialFrame C)
    (full_display_start partial_buffer_start : Nat)
    (bufs : List Nat × List Nat) (row_idx : Nat) : List Nat × List Nat :=
  let fullB := bufs.1
  let partB := bufs.2
  let partial_row_bytes := (pf.aligned_width + 7) / 8
  let full_display_row_bytes := (pf.full_display_width + 7) / 8
  let partial_x_byte_offset := pf.aligned_x / 8
  let left_padding_bits := pf.original_x - pf.aligned_x
  let right_padding_bits := pf.aligned_width - left_padding_bits - pf.original_width
  let partial_row_start := partial_buffer_start + row_idx * partial_row_bytes
  let full_display_byte_start := full_display_start +
    (pf.y + row_idx) * full_display_row_bytes + partial_x_byte_offset
  let partB1 := partB.set partial_row_start
    (copy_left_padding_bits (partB.getD partial_row_start 0)
      (fullB.getD full_display_byte_start 0) left_padding_bits)
  let partial_last_byte_idx := partial_row_start + partial_row_bytes - 1
  let full_display_last_byte_idx := full_display_byte_start + partial_row_bytes - 1
  let partB2 := partB1.set partial_last_byte_idx
    (copy_right_padding_bits (partB1.getD partial_last_byte_idx 0)
      (fullB.getD full_display_last_byte_idx 0) right_padding_bits)
  let fullB2 := copyRange partB2 fullB partial_row_start full_display_byte_start
    partial_row_bytes
  (fullB2, partB2)

/-- PartialFrame::copy_and_sync_buffer of src/graphics.rs: run the row loop
over rows 0 .. height within the plane windows given by the start offsets. -/
def PartialFrame.copy_and_sync_buffer (pf : PartialFrame C)
    (full_display_start _full_display_end partial_buffer_start _partial_buffer_end : Nat) :
    PartialFrame C :=
  let bufs := (List.range pf.height).foldl
    (pf.copy_and_sync_row full_display_start partial_buffer_start)
    (pf.full_display_buffer, pf.buffer)
  { pf with full_display_buffer := bufs.1, buffer := bufs.2 }

/-- PartialFrame::get_update_parameters for the monochrome Color impl of
src/graphics.rs: one reconciliation pass over the single plane, returning the
aligned parameters together with the updated view (which carries the merged
parent buffer). -/
def PartialFrame.get_update_parameters (pf : PartialFrame Color) :
    PartialUpdateParameters × PartialFrame Color :=
  let pf2 := pf.copy_and_sync_buffer 0 pf.full_display_size 0 pf.buffer.length
  ({ x := pf2.aligned_x, y := pf2.y, width := pf2.aligned_width,
     height := pf2.height, buffer := pf2.buffer }, pf2)

/-- PartialFrame::get_update_parameters for the TriColor impl of
src/graphics.rs: the reconciliation pass runs once per plane half, with
half-length offsets into both buffers. -/
def PartialFrame.get_update_parameters_tricolor (pf : PartialFrame TriColor) :
    PartialUpdateParameters × PartialFrame TriColor :=
  let half_size := pf.buffer.length / 2
  let full_display_half_size := pf.full_display_size / 2
  let pf1 := pf.copy_and_sync_buffer 0 full_display_half_size 0 half_size
  let pf2 := pf1.copy_and_sync_buffer full_display_half_size pf1.full_display_size
    half_size pf1.buffer.length
  ({ x := pf2.aligned_x, y := pf2.y, width := pf2.aligned_width,
     height := pf2.height, buffer := pf2.buffer }, pf2)

/-- The fixed-geometry Display of src/graphics.rs. The const generics WIDTH,
HEIGHT, BWRBIT become runtime fields of the embedding; BYTECOUNT is the
length of the buffer. -/
structure Display (C : Type) where
  width : Nat
  height : Nat
  bwrbit : Bool
  buffer : List Nat
  rotation : DisplayRotation
deriving DecidableEq, Repr

/-- Display::default of src/graphics.rs: a zero-filled buffer of BYTECOUNT
bytes and the default rotation Rotate0. -/
def Display.default (C : Type) (width height : Nat) (bwrbit : Bool)
    (bytecount : Nat) : Display C :=
  { width := width, height := height, bwrbit := bwrbit,
    buffer := List.replicate bytecount 0, rotation := DisplayRotation.Rotate0 }

/-- Display::set_rotation of src/graphics.rs. -/
def Display.set_rotation (d : Display C) (rotation : DisplayRotation) : Display C :=
  { d with rotation := rotation }

/-- Display::set_pixel of src/graphics.rs delegates to the free set_pixel. -/
def Display.set_pixel (ct : ColorTypeSpec C) (d : Display C)
    (pixel : (Int × Int) × C) : Display C :=
  { d with buffer := (EpdWaveshare.set_pixel ct d.buffer d.width d.height d.rotation
      d.bwrbit pixel) }

/-- Display::get_partial_frame of src/graphics.rs: build the view from the
display buffer, width and BYTECOUNT, without passing the rotation along. -/
def Display.get_partial_frame (ct : ColorTypeSpec C) (d : Display C)
    (x y width height : Nat) : Option (PartialFrame C) :=
  PartialFrame.new ct x y width height d.buffer d.width d.buffer.length d.bwrbit

/-- Error found during usage of VarDisplay (enum VarDisplayError in
src/graphics.rs). -/
inductive VarDisplayError where
  | BufferTooSmall
deriving DecidableEq, Repr

/-- The runtime-geometry VarDisplay of src/graphics.rs. The borrowed backing
buffer is stored in the structure. -/
structure VarDisplay (C : Type) where
  width : Nat
  height : Nat
  bwrbit : Bool
  buffer : List Nat
  rotation : DisplayRotation
deriving DecidableEq, Repr

/-- VarDisplay::buffer_size of src/graphics.rs. -/
def VarDisplay.buffer_size (ct : ColorTypeSpec C) (d : VarDisplay C) : Nat :=
  d.height * line_bytes d.width (ct.bits_per_pixel_per_buffer * ct.buffer_count)

/-- VarDisplay::new of src/graphics.rs: dynamically enforce that the supplied
backing buffer holds at least buffer_size bytes, else fail with the
recoverable BufferTooSmall error value. -/
def VarDisplay.new (ct : ColorTypeSpec C) (width height : Nat)
    (buffer : List Nat) (bwrbit : Bool) : Except VarDisplayError (VarDisplay C) :=
  let myself : VarDisplay C :=
    { width := width, height := height, bwrbit := bwrbit, buffer := buffer,
      rotation := DisplayRotation.Rotate0 }
  if myself.buffer_size ct > myself.buffer.length then
    .error VarDisplayError.BufferTooSmall
  else
    .ok myself

/-- VarDisplay::set_pixel of src/graphics.rs: the write is performed against
the slice of the first buffer_size bytes of the backing buffer. -/
def VarDisplay.set_pixel (ct : ColorTypeSpec C) (d : VarDisplay C)
    (pixel : (Int × Int) × C) : VarDisplay C :=
  let size := d.buffer_size ct
  { d with buffer :=
      (EpdWaveshare.set_pixel ct (d.buffer.take size) d.width d.height d.rotation
        d.bwrbit pixel ++ d.buffer.drop size) }

/-- VarDisplay::get_partial_frame of src/graphics.rs: build the view from the
backing buffer, width and buffer_size, without passing the rotation along. -/
def VarDisplay.get_partial_frame (ct : ColorTypeSpec C) (d : VarDisplay C)
    (x y width height : Nat) : Option (PartialFrame C) :=
  PartialFrame.new ct x y width height d.buffer d.width (d.buffer_size ct) d.bwrbit

/-- Modelled from the spec: buffer_len of src/lib.rs (not among the staged
sources; section 4.4 of the spec gives the expected packed size of a
monochrome buffer as ceil(width / 8) * height). -/
def buffer_len (width height : Nat) : Nat :=
  (width + 7) / 8 * height

/-- The LUT refresh modes of src/traits.rs (not among the staged sources;
section 3 of the spec: one of Full / Quick / PartialRefresh, default Full). -/
inductive RefreshLut where
  | Full
  | Quick
  | PartialRefresh
deriving DecidableEq, Repr

/-- Default refresh mode is Full. -/
instance : Inhabited RefreshLut := ⟨RefreshLut.Full⟩

/-- The protocol commands of src/epd7in5_v2/command.rs used by the staged
driver code (the numeric command table is per-model lookup data outside the
staged sources; the constructors stand for the command bytes). -/
inductive Command where
  | BoosterSoftStart
  | PowerOn
  | PanelSetting
  | VcomAndDataIntervalSetting
  | PowerOff
  | DeepSleep
  | DataStartTransmission2
  | DisplayRefresh
  | PartialIn
  | PartialOut
  | PartialWindow
  | CascadeSetting
  | ForceTemperature
  | GetStatus
deriving DecidableEq, Repr

/-- One event on the SPI bus: a command byte or a block of data bytes
(DisplayInterface::cmd and the data transmissions). -/
inductive Event where
  | cmd (c : Command)
  | data (bytes : List Nat)
deriving DecidableEq, Repr

/-- DisplayInterface::cmd_with_data: a command followed by its data block. -/
def cmd_with_data (c : Command) (bytes : List Nat) : List Event :=
  [Event.cmd c, Event.data bytes]

/-- The panics the staged driver code can raise. -/
inductive EpdPanic where
  | bufferIncorrectSize
  | subtractWithOverflow
deriving DecidableEq, Repr

/-- Driver state of Epd7in5 (src/epd7in5_v2/mod.rs): background color and
currently active LUT refresh mode. The hardware interface handle is external
and appears only through the event transcript. -/
structure Epd7in5State where
  color : Color
  refresh : RefreshLut
deriving DecidableEq, Repr

/-- Epd7in5::update_frame of src/epd7in5_v2/mod.rs: transmit the whole buffer
under the DataStartTransmission2 command. -/
def Epd7in5.update_frame (buffer : List Nat) : List Event :=
  cmd_with_data Command.DataStartTransmission2 buffer

/-- Epd7in5::update_partial_frame of src/epd7in5_v2/mod.rs. The buffer size
contract check panics (bufferIncorrectSize) before any bus traffic; the u32
subtractions x_aligned + width - 1 and y + height - 1 panic on underflow.
On success the transcript is: PartialIn, the PartialWindow command with its
nine address bytes (u32 to u8 casts embedded as shift and mod 256), the
buffer transmission, PartialOut. -/
def Epd7in5.update_partial_frame (buffer : List Nat) (x y width height : Nat) :
    Except EpdPanic (List Event) :=
  let expected_size := buffer_len width height
  let actual_size := buffer.length
  if actual_size ≠ expected_size then .error EpdPanic.bufferIncorrectSize
  else
    let x_aligned := x &&& 0xFFFFFFF8
    if x_aligned + width < 1 then .error EpdPanic.subtractWithOverflow
    else
      let x_end := x_aligned + width - 1
      let x_end_aligned := x_end ||| 0b111
      let hrst_upper := (x_aligned >>> 8) % 256
      let hrst_lower := x_aligned % 256
      let hred_upper := (x_end_aligned >>> 8) % 256
      let hred_lower := x_end_aligned % 256
      if y + height < 1 then .error EpdPanic.subtractWithOverflow
      else
        let y_end := y + height - 1
        let vrst_upper := (y >>> 8) % 256
        let vrst_lower := y % 256
        let vred_upper := (y_end >>> 8) % 256
        let vred_lower := y_end % 256
        let pt_scan := 0x01
        .ok ([Event.cmd Command.PartialIn] ++
          cmd_with_data Command.PartialWindow
            [hrst_upper, hrst_lower, hred_upper, hred_lower, vrst_upper,
             vrst_lower, vred_upper, vred_lower, pt_scan] ++
          Epd7in5.update_frame buffer ++
          [Event.cmd Command.PartialOut])

/-- Epd7in5::set_lut of src/epd7in5_v2/mod.rs: no-op when the requested mode
equals the current one; otherwise restore booster defaults when leaving
Quick, then program the mode via the CascadeSetting / ForceTemperature
sentinels, and record the new mode. -/
def Epd7in5.set_lut (s : Epd7in5State) (refresh_rate : Option RefreshLut) :
    Epd7in5State × List Event :=
  if some s.refresh = refresh_rate then (s, [])
  else
    let restore :=
      if s.refresh = RefreshLut.Quick then
        cmd_with_data Command.BoosterSoftStart [0x17, 0x17, 0x28, 0x17]
      else []
    let program :=
      match refresh_rate with
      | some RefreshLut.Full | none =>
        cmd_with_data Command.CascadeSetting [0x00]
      | some RefreshLut.Quick =>
        cmd_with_data Command.BoosterSoftStart [0x27, 0x27, 0x18, 0x17] ++
        cmd_with_data Command.CascadeSetting [0x02] ++
        cmd_with_data Command.ForceTemperature [0x5A]
      | some RefreshLut.PartialRefresh =>
        cmd_with_data Command.CascadeSetting [0x02] ++
        cmd_with_data Command.ForceTemperature [0x6E]
    ({ s with refresh := refresh_rate.getD default }, restore ++ program)

/-! Helper lemmas about the bit arithmetic of byte alignment. -/

/-- OR with 0b111 rounds up to the last column of the byte. -/
theorem lor_seven (v : Nat) : v ||| 7 = 8 * (v / 8) + 7 := by
  conv_lhs => rw [← Nat.div_add_mod v 8]
  apply Nat.eq_of_testBit_eq
  intro i
  rw [Nat.testBit_lor]
  have h7 : (7 : Nat) = 2 ^ 3 - 1 := by norm_num
  have hm : (8 : Nat) * (v / 8) = 2 ^ 3 * (v / 8) := by norm_num
  rw [hm, Nat.testBit_mul_pow_two_add _ (Nat.mod_lt v (by norm_num)) i,
    Nat.testBit_mul_pow_two_add _ (show (7:Nat) < 2 ^ 3 by norm_num) i, h7,
    Nat.testBit_two_pow_sub_one]
  by_cases hi : i < 3 <;> simp [hi]

/-- AND with the u32 complement of 0b111 rounds down to the byte boundary. -/
theorem land_mask8 (v : Nat) (h : v < 2 ^ 32) : v &&& 0xFFFFFFF8 = 8 * (v / 8) := by
  apply Nat.eq_of_testBit_eq
  intro i
  rw [Nat.testBit_land]
  have hM : (0xFFFFFFF8 : Nat) = (2 ^ 29 - 1) <<< 3 := by
    rw [Nat.shiftLeft_eq]
    norm_num
  have h8 : (8 : Nat) * (v / 8) = (v >>> 3) <<< 3 := by
    rw [Nat.shiftRight_eq_div_pow, Nat.shiftLeft_eq]
    norm_num
    ring
  rw [hM, h8, Nat.testBit_shiftLeft, Nat.testBit_shiftLeft, Nat.testBit_two_pow_sub_one,
    Nat.testBit_shiftRight]
  by_cases hi3 : 3 ≤ i
  · have h3i : 3 + (i - 3) = i := by omega
    rw [h3i]
    by_cases hi32 : i < 32
    · simp [hi3, ge_iff_le]
      omega
    · have hv : v.testBit i = false := Nat.testBit_lt_two_pow (by
        calc v < 2 ^ 32 := h
        _ ≤ 2 ^ i := Nat.pow_le_pow_right (by norm_num) (by omega))
      simp [hv]
  · simp [hi3, ge_iff_le]

/-! Helper lemmas about list updates. -/

/-- Reading an updated list at the updated index. -/
theorem getD_set_self (l : List Nat) (i : Nat) (v : Nat) (h : i < l.length) :
    (l.set i v).getD i 0 = v := by
  rw [List.getD_eq_getElem?_getD, List.getElem?_set_self h]
  rfl

/-- Reading an updated list away from the updated index. -/
theorem getD_set_ne (l : List Nat) (i j : Nat) (v : Nat) (h : i ≠ j) :
    (l.set i v).getD j 0 = l.getD j 0 := by
  rw [List.getD_eq_getElem?_getD, List.getElem?_set_ne h, ← List.getD_eq_getElem?_getD]

/-- copyRange preserves the length of the destination. -/
theorem copyRange_length (src dst : List Nat) (srcStart dstStart n : Nat) :
    (copyRange src dst srcStart dstStart n).length = dst.length := by
  unfold copyRange
  induction n generalizing dst with
  | zero => simp
  | succ m ih =>
    rw [List.range_succ, List.foldl_append]
    simp only [List.foldl_cons, List.foldl_nil]
    rw [List.length_set, ih]

/-- copyRange leaves indices outside the copied window unchanged. -/
theorem copyRange_getD_outside (src dst : List Nat) (srcStart dstStart n j : Nat)
    (h : j < dstStart ∨ dstStart + n ≤ j) :
    (copyRange src dst srcStart dstStart n).getD j 0 = dst.getD j 0 := by
  unfold copyRange
  induction n generalizing dst with
  | zero => simp
  | succ m ih =>
    rw [List.range_succ, List.foldl_append]
    simp only [List.foldl_cons, List.foldl_nil]
    rw [getD_set_ne _ _ _ _ (by omega)]
    exact ih dst (by omega)

/-- copyRange writes source bytes across the copied window. -/
theorem copyRange_getD_inside (src dst : List Nat) (srcStart dstStart n b : Nat)
    (hb : b < n) (hlen : dstStart + n ≤ dst.length) :
    (copyRange src dst srcStart dstStart n).getD (dstStart + b) 0 =
      src.getD (srcStart + b) 0 := by
  unfold copyRange
  induction n generalizing dst with
  | zero => omega
  | succ m ih =>
    rw [List.range_succ, List.foldl_append]
    simp only [List.foldl_cons, List.foldl_nil]
    rcases Nat.lt_or_ge b m with hbm | hbm
    · rw [getD_set_ne _ _ _ _ (by omega)]
      exact ih dst hbm (by omega)
    · have hbe : b = m := by omega
      subst hbe
      apply getD_set_self
      have hfl := copyRange_length src dst srcStart dstStart b
      unfold copyRange at hfl
      omega

/-! Claim C7. -/

/-- C7: requesting the currently active waveform mode again from set_lut
issues zero commands and zero data bytes over the bus and leaves the driver
state (recorded mode, background color) unchanged. -/
theorem c7_set_lut_idempotent (s : Epd7in5State) :
    Epd7in5.set_lut s (some s.refresh) = (s, []) := by
  unfold Epd7in5.set_lut
  simp

/-! Claim C8. -/

/-- C8: VarDisplay::new fails with the recoverable BufferTooSmall error value
exactly when the supplied backing buffer is shorter than the computed size
height * ceil(width * bpp / 8) over all planes, and returns the valid display
otherwise. -/
theorem c8_vardisplay_new_buffer_check {C : Type} (ct : ColorTypeSpec C)
    (width height : Nat) (buffer : List Nat) (bwrbit : Bool) :
    (VarDisplay.new ct width height buffer bwrbit =
        Except.error VarDisplayError.BufferTooSmall ↔
      buffer.length <
        height * line_bytes width (ct.bits_per_pixel_per_buffer * ct.buffer_count)) ∧
    (height * line_bytes width (ct.bits_per_pixel_per_buffer * ct.buffer_count) ≤
        buffer.length →
      VarDisplay.new ct width height buffer bwrbit =
        Except.ok { width := width, height := height, bwrbit := bwrbit,
                    buffer := buffer, rotation := DisplayRotation.Rotate0 }) := by
  unfold VarDisplay.new VarDisplay.buffer_size
  constructor
  · constructor
    · intro h
      by_cases hc : height * line_bytes width
          (ct.bits_per_pixel_per_buffer * ct.buffer_count) > buffer.length
      · omega
      · simp [hc] at h
    · intro h
      simp [show height * line_bytes width
        (ct.bits_per_pixel_per_buffer * ct.buffer_count) > buffer.length from h]
  · intro h
    simp [show ¬(height * line_bytes width
      (ct.bits_per_pixel_per_buffer * ct.buffer_count) > buffer.length) by omega]

/-- Witness for C8: a 16 x 4 monochrome VarDisplay over an 8 byte backing
buffer constructs successfully, and a 7 byte buffer is rejected. -/
theorem c8_vardisplay_new_buffer_check_witness :
    VarDisplay.new ctColor 16 4 (List.replicate 8 0) false =
      Except.ok { width := 16, height := 4, bwrbit := false,
                  buffer := List.replicate 8 0, rotation := DisplayRotation.Rotate0 } ∧
    VarDisplay.new ctColor 16 4 (List.replicate 7 0) false =
      Except.error VarDisplayError.BufferTooSmall := by
  constructor
  · exact (c8_vardisplay_new_buffer_check ctColor 16 4 (List.replicate 8 0) false).2
      (by decide)
  · exact (c8_vardisplay_new_buffer_check ctColor 16 4 (List.replicate 7 0) false).1.mpr
      (by decide)

/-! Claim C6. -/

/-- C6: update_partial_frame aborts with the buffer size panic exactly when
the supplied buffer length differs from the expected packed size
ceil(width / 8) * height, and it does so before issuing any command or data
byte (the abort carries an empty transcript); when the length matches the
size check never aborts. -/
theorem c6_buffer_size_check_fail_fast (buffer : List Nat) (x y width height : Nat) :
    (buffer.length ≠ buffer_len width height →
      Epd7in5.update_partial_frame buffer x y width height =
        Except.error EpdPanic.bufferIncorrectSize) ∧
    (buffer.length = buffer_len width height →
      Epd7in5.update_partial_frame buffer x y width height ≠
        Except.error EpdPanic.bufferIncorrectSize) := by
  unfold Epd7in5.update_partial_frame
  constructor
  · intro h
    simp [h]
  · intro h
    by_cases h1 : (x &&& 0xFFFFFFF8) + width < 1 <;>
      by_cases h2 : y + height < 1 <;>
      simp [h, h1, h2]

/-- Witness for C6: a one byte buffer for a 16 x 1 window aborts with the
size panic, while the correct two byte buffer passes the size check. -/
theorem c6_buffer_size_check_fail_fast_witness :
    Epd7in5.update_partial_frame [0] 0 0 16 1 =
      Except.error EpdPanic.bufferIncorrectSize ∧
    Epd7in5.update_partial_frame [0, 0] 0 0 16 1 ≠
      Except.error EpdPanic.bufferIncorrectSize := by
  constructor
  · exact (c6_buffer_size_check_fail_fast [0] 0 0 16 1).1 (by decide)
  · exact (c6_buffer_size_check_fail_fast [0, 0] 0 0 16 1).2 (by decide)

/-! Claim C5. -/

/-- A big-endian byte pair: the high cast byte of a value below 65536 is its
quotient by 256. -/
theorem shift8_mod256 (v : Nat) (hv : v < 65536) : (v >>> 8) % 256 = v / 256 := by
  rw [Nat.shiftRight_eq_div_pow]
  have h : v / 2 ^ 8 < 256 := Nat.div_lt_of_lt_mul (by norm_num at *; omega)
  rw [Nat.mod_eq_of_lt h]
  norm_num

/-- C5: for an already byte-aligned window (x and width multiples of 8, width
and height at least 1) with a buffer of the expected packed size, the partial
update transcript is exactly: PartialIn; the PartialWindow command with the
big-endian byte pair of x, the big-endian byte pair of (x + width - 1) OR
0b111, the big-endian byte pairs of y and y + height - 1, then 0x01; the
buffer transmission under DataStartTransmission2; PartialOut. -/
theorem c5_update_partial_frame_transcript (buffer : List Nat) (x y width height : Nat)
    (hx : x % 8 = 0) (hw : width % 8 = 0) (hw1 : 1 ≤ width) (hh1 : 1 ≤ height)
    (hxw : x + width ≤ 65536) (hyh : y + height ≤ 65536)
    (hbuf : buffer.length = buffer_len width height) :
    Epd7in5.update_partial_frame buffer x y width height = Except.ok
      [Event.cmd Command.PartialIn,
       Event.cmd Command.PartialWindow,
       Event.data [x / 256, x % 256,
         ((x + width - 1) ||| 0b111) / 256, ((x + width - 1) ||| 0b111) % 256,
         y / 256, y % 256, (y + height - 1) / 256, (y + height - 1) % 256, 0x01],
       Event.cmd Command.DataStartTransmission2,
       Event.data buffer,
       Event.cmd Command.PartialOut] := by
  have h2p : (65536 : Nat) ≤ 2 ^ 32 := by norm_num
  have hxa : x &&& 0xFFFFFFF8 = x := by
    rw [land_mask8 x (by omega)]
    omega
  have hend : (x + width - 1) ||| 7 = x + width - 1 := by
    rw [lor_seven]
    omega
  unfold Epd7in5.update_partial_frame Epd7in5.update_frame cmd_with_data
  rw [hxa]
  have h0 : ¬(buffer.length ≠ buffer_len width height) := by simp [hbuf]
  have h1 : ¬(x + width < 1) := by omega
  have h2 : ¬(y + height < 1) := by omega
  simp only [h0, if_false, h1, h2, hend, ite_false]
  rw [shift8_mod256 x (by omega), shift8_mod256 (x + width - 1) (by omega),
    shift8_mod256 y (by omega), shift8_mod256 (y + height - 1) (by omega)]
  rfl

/-- Witness for C5: the aligned window x = 16, y = 300, width = 16,
height = 1 with a two byte buffer produces the expected nine address bytes
bracketed by PartialIn / PartialOut. -/
theorem c5_update_partial_frame_transcript_witness :
    Epd7in5.update_partial_frame (List.replicate 2 171) 16 300 16 1 = Except.ok
      [Event.cmd Command.PartialIn,
       Event.cmd Command.PartialWindow,
       Event.data [0, 16, 0, 31, 1, 44, 1, 44, 1],
       Event.cmd Command.DataStartTransmission2,
       Event.data (List.replicate 2 171),
       Event.cmd Command.PartialOut] := by
  rw [c5_update_partial_frame_transcript (List.replicate 2 171) 16 300 16 1
    (by decide) (by decide) (by decide) (by decide) (by decide) (by decide) (by decide)]
  rfl

/-! Claims C4, C9, C10. -/

/-- With width at least 1 neither subtraction of PartialFrame::new
underflows. -/
theorem new_not_underflow (x width : Nat) (hw : 1 ≤ width) :
    ¬(x + width < 1) ∧ ¬((x + width - 1) ||| 7 < x &&& 0xFFFFFFF8) := by
  constructor
  · omega
  · have h1 : x &&& 0xFFFFFFF8 ≤ x := Nat.and_le_left
    have h2 := lor_seven (x + width - 1)
    omega

/-- C4: for width at least 1 the constructed partial view satisfies
aligned_x ≤ x, aligned_x mod 8 = 0, aligned_x + aligned_width ≥ x + width,
aligned_width mod 8 = 0, and its own buffer length is
height * ceil(aligned_width * bpp / 8) with bpp covering all planes. -/
theorem c4_partial_frame_alignment {C : Type} (ct : ColorTypeSpec C)
    (x y width height : Nat) (fdb : List Nat) (fdw fds : Nat) (bw : Bool)
    (hw1 : 1 ≤ width) (hx32 : x + width ≤ 2 ^ 32) :
    ∃ pf : PartialFrame C,
      PartialFrame.new ct x y width height fdb fdw fds bw = some pf ∧
      pf.aligned_x ≤ x ∧ pf.aligned_x % 8 = 0 ∧
      x + width ≤ pf.aligned_x + pf.aligned_width ∧ pf.aligned_width % 8 = 0 ∧
      pf.buffer.length = height *
        line_bytes pf.aligned_width (ct.bits_per_pixel_per_buffer * ct.buffer_count) := by
  have ha : x &&& 0xFFFFFFF8 = 8 * (x / 8) := land_mask8 x (by omega)
  have hl := lor_seven (x + width - 1)
  obtain ⟨h1, h2⟩ := new_not_underflow x width hw1
  unfold PartialFrame.new
  simp only [if_neg h1, if_neg h2]
  refine ⟨_, rfl, ?_, ?_, ?_, ?_, ?_⟩ <;> simp only [List.length_replicate, ha, hl]
  · omega
  · omega
  · omega
  · omega

/-- Witness for C4: the spec scenario x = 3, width = 10 on an 800 wide
monochrome display yields an aligned view with the claimed properties. -/
theorem c4_partial_frame_alignment_witness :
    ∃ pf : PartialFrame Color,
      PartialFrame.new ctColor 3 0 10 4 (List.replicate 48000 0) 800 48000 false =
        some pf ∧
      pf.aligned_x ≤ 3 ∧ pf.aligned_x % 8 = 0 ∧
      3 + 10 ≤ pf.aligned_x + pf.aligned_width ∧ pf.aligned_width % 8 = 0 ∧
      pf.buffer.length = 4 * line_bytes pf.aligned_width
        (ctColor.bits_per_pixel_per_buffer * ctColor.buffer_count) :=
  c4_partial_frame_alignment ctColor 3 0 10 4 (List.replicate 48000 0) 800 48000 false
    (by decide) (by norm_num)

/-- C9: every partial view starts with rotation Rotate0, whatever the parent
display's current rotation is: neither VarDisplay::get_partial_frame nor
Display::get_partial_frame passes the parent rotation along. -/
theorem c9_partial_frame_rotation_reset {C : Type} (ct : ColorTypeSpec C)
    (d : VarDisplay C) (e : Display C) (x y width height : Nat) (hw : 1 ≤ width) :
    Option.map PartialFrame.rotation (VarDisplay.get_partial_frame ct d x y width height) =
      some DisplayRotation.Rotate0 ∧
    Option.map PartialFrame.rotation (Display.get_partial_frame ct e x y width height) =
      some DisplayRotation.Rotate0 := by
  obtain ⟨h1, h2⟩ := new_not_underflow x width hw
  unfold VarDisplay.get_partial_frame Display.get_partial_frame PartialFrame.new
  simp only [if_neg h1, if_neg h2, Option.map_some]
  exact ⟨rfl, rfl⟩

/-- Witness for C9: a parent rotated to Rotate180 still hands out a view with
rotation Rotate0. -/
theorem c9_partial_frame_rotation_reset_witness :
    Option.map PartialFrame.rotation
      (VarDisplay.get_partial_frame ctColor
        { width := 16, height := 4, bwrbit := false,
          buffer := List.replicate 8 0, rotation := DisplayRotation.Rotate180 }
        3 0 10 2) = some DisplayRotation.Rotate0 ∧
    Option.map PartialFrame.rotation
      (Display.get_partial_frame ctColor
        { width := 16, height := 4, bwrbit := false,
          buffer := List.replicate 8 0, rotation := DisplayRotation.Rotate90 }
        3 0 10 2) = some DisplayRotation.Rotate0 :=
  c9_partial_frame_rotation_reset ctColor
    { width := 16, height := 4, bwrbit := false,
      buffer := List.replicate 8 0, rotation := DisplayRotation.Rotate180 }
    { width := 16, height := 4, bwrbit := false,
      buffer := List.replicate 8 0, rotation := DisplayRotation.Rotate90 }
    3 0 10 2 (by decide)

/-- Counterexample for C10: with width = 0 and x = 9 neither PartialFrame
construction nor the driver address computation panics, contrary to the
claim that width = 0 always underflows; the view construction succeeds and
update_partial_frame runs to completion. -/
theorem c10_width_zero_not_always_panic :
    (PartialFrame.new ctColor 9 0 0 4 (List.replicate 40 0) 80 40 false).isSome = true ∧
    (Epd7in5.update_partial_frame [] 9 0 0 1).isOk = true := by
  exact ⟨rfl, rfl⟩

/-- C10 (amended): totality indeed needs width ≥ 1, under which neither the
view construction nor the driver address computation panics; but for
width = 0 the view construction underflows exactly when x is a multiple of 8
(at x + width - 1 for x = 0, at the aligned-width subtraction otherwise),
and the driver address computation underflows exactly when x < 8; for other
x a width = 0 call does not panic. -/
theorem c10_width_zero_underflow_characterization :
    (∀ {C : Type} (ct : ColorTypeSpec C) (x y width height : Nat)
        (fdb : List Nat) (fdw fds : Nat) (bw : Bool), 1 ≤ width →
      (PartialFrame.new ct x y width height fdb fdw fds bw).isSome = true) ∧
    (∀ {C : Type} (ct : ColorTypeSpec C) (x y height : Nat)
        (fdb : List Nat) (fdw fds : Nat) (bw : Bool), x < 2 ^ 32 →
      ((PartialFrame.new ct x y 0 height fdb fdw fds bw).isSome = false ↔ x % 8 = 0)) ∧
    (∀ (buffer : List Nat) (x y width height : Nat), 1 ≤ width → 1 ≤ height →
      buffer.length = buffer_len width height →
      (Epd7in5.update_partial_frame buffer x y width height).isOk = true) ∧
    (∀ (x y height : Nat), 1 ≤ height → x < 2 ^ 32 →
      ((Epd7in5.update_partial_frame [] x y 0 height).isOk = false ↔ x < 8)) := by
  refine ⟨?_, ?_, ?_, ?_⟩
  · intro C ct x y width height fdb fdw fds bw hw
    obtain ⟨h1, h2⟩ := new_not_underflow x width hw
    unfold PartialFrame.new
    simp only [if_neg h1, if_neg h2, Option.isSome_some]
  · intro C ct x y height fdb fdw fds bw hx32
    have ha : x &&& 0xFFFFFFF8 = 8 * (x / 8) := land_mask8 x hx32
    have hl := lor_seven (x + 0 - 1)
    unfold PartialFrame.new
    by_cases h0 : x + 0 < 1
    · have hx0 : x = 0 := by omega
      subst hx0
      simp only [if_pos h0, Option.isSome_none]
    · simp only [if_neg h0, ha, hl]
      by_cases h2 : 8 * ((x + 0 - 1) / 8) + 7 < 8 * (x / 8)
      · simp only [if_pos h2, Option.isSome_none, eq_self_iff_true, true_iff]
        omega
      · simp only [if_neg h2, Option.isSome_some, Bool.true_eq_false, false_iff]
        omega
  · intro buffer x y width height hw hh hbuf
    unfold Epd7in5.update_partial_frame
    have h1 : ¬((x &&& 0xFFFFFFF8) + width < 1) := by omega
    have h2 : ¬(y + height < 1) := by omega
    simp [hbuf, h1, h2]
    rfl
  · intro x y height hh hx32
    have ha : x &&& 0xFFFFFFF8 = 8 * (x / 8) := land_mask8 x hx32
    unfold Epd7in5.update_partial_frame
    have h0 : (List.nil : List Nat).length = buffer_len 0 height := by
      simp [buffer_len]
    have h2 : ¬(y + height < 1) := by omega
    simp only [h0, ne_eq, not_true_eq_false, if_false, ha]
    by_cases h1 : 8 * (x / 8) + 0 < 1
    · simp only [if_pos h1]
      have hiso : (Except.error (α := List Event) EpdPanic.subtractWithOverflow).isOk =
        false := rfl
      rw [hiso]
      simp only [eq_self_iff_true, true_iff]
      omega
    · simp only [if_neg h1, if_neg h2]
      have hiso2 : ∀ (v : List Event), (Except.ok (ε := EpdPanic) v).isOk = true :=
        fun _ => rfl
      rw [hiso2]
      simp only [Bool.true_eq_false, false_iff]
      omega

/-- Witness for C10: the four parts at concrete inputs: a 10 wide view at
x = 3 constructs, a width = 0 view at x = 8 panics, an aligned 16 x 1 driver
update runs, and a width = 0 driver call at x = 3 underflows. -/
theorem c10_width_zero_underflow_characterization_witness :
    (PartialFrame.new ctColor 3 0 10 4 (List.replicate 40 0) 80 40 false).isSome = true ∧
    (PartialFrame.new ctColor 8 0 0 4 (List.replicate 40 0) 80 40 false).isSome = false ∧
    (Epd7in5.update_partial_frame (List.replicate 2 0) 16 0 16 1).isOk = true ∧
    (Epd7in5.update_partial_frame [] 3 0 0 1).isOk = false := by
  refine ⟨?_, ?_, ?_, ?_⟩
  · exact c10_width_zero_underflow_characterization.1 ctColor 3 0 10 4
      (List.replicate 40 0) 80 40 false (by decide)
  · exact (c10_width_zero_underflow_characterization.2.1 ctColor 8 0 4
      (List.replicate 40 0) 80 40 false (by norm_num)).mpr (by decide)
  · exact c10_width_zero_underflow_characterization.2.2.1 (List.replicate 2 0) 16 0 16 1
      (by decide) (by decide) (by decide)
  · exact (c10_width_zero_underflow_characterization.2.2.2 3 0 1
      (by decide) (by norm_num)).mpr (by decide)

/-! Claim C2. -/

/-- C2 evaluated at a failing input: on a 16 wide, 4 tall zeroed monochrome
parent, the view over x = 3, width = 12 (left padding 3, right padding 1)
carries caller pixel (0, 0) under Rotate90 to physical panel column
3 + (12 - 1 - 0) = 14 of row 0, so the physically corresponding direct
parent write sets byte 1 to 2; but the view pipeline (set_pixel on the view,
then extraction) sets byte 1 to 8, i.e. column 12 — displaced by the
difference of the paddings. Under Rotate180 the same in-bounds caller pixel
is silently dropped altogether (the parent stays all zero after extraction,
though the corresponding direct write sets byte 7 to 2). -/
theorem c2_rotated_view_write_misplaced :
    (Option.map
      (fun pf => ((PartialFrame.get_update_parameters (PartialFrame.set_pixel ctColor
          (pf.set_rotation DisplayRotation.Rotate90) ((0, 0), Color.White))).2).full_display_buffer)
      (PartialFrame.new ctColor 3 0 12 4 (List.replicate 8 0) 16 8 false) =
      some [0, 8, 0, 0, 0, 0, 0, 0]) ∧
    (set_pixel ctColor (List.replicate 8 0) 16 4 DisplayRotation.Rotate0 false
      ((14, 0), Color.White) = [0, 2, 0, 0, 0, 0, 0, 0]) ∧
    (Option.map
      (fun pf => ((PartialFrame.get_update_parameters (PartialFrame.set_pixel ctColor
          (pf.set_rotation DisplayRotation.Rotate180) ((0, 0), Color.White))).2).full_display_buffer)
      (PartialFrame.new ctColor 3 0 12 4 (List.replicate 8 0) 16 8 false) =
      some [0, 0, 0, 0, 0, 0, 0, 0]) ∧
    (set_pixel ctColor (List.replicate 8 0) 16 4 DisplayRotation.Rotate0 false
      ((14, 3), Color.White) = [0, 0, 0, 0, 0, 0, 0, 2]) := by
  refine ⟨?_, ?_, ?_, ?_⟩ <;> decide

/-! Claim C3: helper lemmas and the roundtrip theorems. -/

/-- Bytes per view row (partial_row_bytes in copy_and_sync_buffer). -/
def PartialFrame.prb (pf : PartialFrame C) : Nat :=
  (pf.aligned_width + 7) / 8

/-- Bytes per parent row (full_display_row_bytes in copy_and_sync_buffer). -/
def PartialFrame.frb (pf : PartialFrame C) : Nat :=
  (pf.full_display_width + 7) / 8

/-- Byte offset of the aligned region within a parent row. -/
def PartialFrame.xoff (pf : PartialFrame C) : Nat :=
  pf.aligned_x / 8

/-- left_padding_bits of copy_and_sync_buffer. -/
def PartialFrame.leftPad (pf : PartialFrame C) : Nat :=
  pf.original_x - pf.aligned_x

/-- right_padding_bits of copy_and_sync_buffer. -/
def PartialFrame.rightPad (pf : PartialFrame C) : Nat :=
  pf.aligned_width - pf.leftPad - pf.original_width

/-- First parent byte index of row r of the aligned region (plane base A). -/
def PartialFrame.fstart (pf : PartialFrame C) (A r : Nat) : Nat :=
  A + (pf.y + r) * pf.frb + pf.xoff

/-- First view byte index of row r (plane base V). -/
def PartialFrame.pstart (pf : PartialFrame C) (V r : Nat) : Nat :=
  V + r * pf.prb

/-- The view buffer after the two padding patches of one row of
copy_and_sync_buffer. -/
def viewRowPatched (pf : PartialFrame C) (A V : Nat) (F P : List Nat) (r : Nat) :
    List Nat :=
  let P1 := P.set (pf.pstart V r) (copy_left_padding_bits (P.getD (pf.pstart V r) 0)
    (F.getD (pf.fstart A r) 0) pf.leftPad)
  P1.set (pf.pstart V r + pf.prb - 1) (copy_right_padding_bits
    (P1.getD (pf.pstart V r + pf.prb - 1) 0)
    (F.getD (pf.fstart A r + pf.prb - 1) 0) pf.rightPad)

/-- One row step of copy_and_sync_buffer, written through viewRowPatched. -/
theorem copy_and_sync_row_eq (pf : PartialFrame C) (A V : Nat) (F P : List Nat)
    (r : Nat) :
    pf.copy_and_sync_row A V (F, P) r =
      (copyRange (viewRowPatched pf A V F P r) F (pf.pstart V r) (pf.fstart A r)
        pf.prb, viewRowPatched pf A V F P r) := rfl

/-- copy_left_padding_bits writes exactly the source's leftmost bits. -/
theorem copy_left_padding_bits_testBit (v s lp j : Nat) (_hl : lp < 8)
    (hj1 : 8 - lp ≤ j) (hj2 : j < 8) :
    (copy_left_padding_bits v s lp).testBit j = s.testBit j := by
  unfold copy_left_padding_bits
  have h0 : ¬(lp = 0) := by omega
  rw [if_neg h0]
  have hmask : ((0xFF <<< (8 - lp)) % 256).testBit j = true := by
    rw [show (256:Nat) = 2 ^ 8 from rfl, Nat.testBit_mod_two_pow, Nat.testBit_shiftLeft,
      show (0xFF:Nat) = 2 ^ 8 - 1 from rfl, Nat.testBit_two_pow_sub_one]
    have d1 : j < 8 := hj2
    have d2 : j ≥ 8 - lp := hj1
    have d3 : j - (8 - lp) < 8 := by omega
    simp [d1, d2, d3]
  rw [Nat.testBit_lor, Nat.testBit_land, Nat.testBit_land, Nat.testBit_xor, hmask,
    show (255:Nat) = 2 ^ 8 - 1 from rfl, Nat.testBit_two_pow_sub_one]
  simp [hj2]

/-- copy_right_padding_bits writes exactly the source's rightmost bits. -/
theorem copy_right_padding_bits_testBit_low (v s rp j : Nat) (hr : rp < 8)
    (hj : j < rp) :
    (copy_right_padding_bits v s rp).testBit j = s.testBit j := by
  unfold copy_right_padding_bits
  have h0 : ¬(rp = 0) := by omega
  rw [if_neg h0]
  have hmask : ((1 <<< rp) - 1).testBit j = true := by
    rw [Nat.one_shiftLeft, Nat.testBit_two_pow_sub_one]
    simp [hj]
  rw [Nat.testBit_lor, Nat.testBit_land, Nat.testBit_land, Nat.testBit_xor, hmask,
    show (255:Nat) = 2 ^ 8 - 1 from rfl, Nat.testBit_two_pow_sub_one]
  simp [show j < 8 by omega]

/-- copy_right_padding_bits leaves the remaining bits of the byte alone. -/
theorem copy_right_padding_bits_testBit_high (v s rp j : Nat) (_hr : rp < 8)
    (hj : rp ≤ j) (hj8 : j < 8) :
    (copy_right_padding_bits v s rp).testBit j = v.testBit j := by
  unfold copy_right_padding_bits
  by_cases h0 : rp = 0
  · rw [if_pos h0]
  · rw [if_neg h0]
    have hmask : ((1 <<< rp) - 1).testBit j = false := by
      rw [Nat.one_shiftLeft, Nat.testBit_two_pow_sub_one]
      simp
      omega
    rw [Nat.testBit_lor, Nat.testBit_land, Nat.testBit_land, Nat.testBit_xor, hmask,
      show (255:Nat) = 2 ^ 8 - 1 from rfl, Nat.testBit_two_pow_sub_one]
    simp [hj8]

/-- viewRowPatched keeps the view buffer length. -/
theorem viewRowPatched_length (pf : PartialFrame C) (A V : Nat) (F P : List Nat)
    (r : Nat) : (viewRowPatched pf A V F P r).length = P.length := by
  unfold viewRowPatched
  simp [List.length_set]

/-- The left padding bits of the patched first row byte are the parent's. -/
theorem viewRowPatched_first_bits (pf : PartialFrame C) (A V : Nat)
    (F P : List Nat) (r j : Nat)
    (hPlen : pf.pstart V r + pf.prb ≤ P.length) (hprb : 1 ≤ pf.prb)
    (hleft : pf.leftPad < 8) (hright : pf.rightPad < 8)
    (hlr : pf.prb = 1 → pf.rightPad ≤ 8 - pf.leftPad)
    (hj1 : 8 - pf.leftPad ≤ j) (hj2 : j < 8) :
    ((viewRowPatched pf A V F P r).getD (pf.pstart V r) 0).testBit j =
      (F.getD (pf.fstart A r) 0).testBit j := by
  unfold viewRowPatched
  by_cases hp1 : pf.prb = 1
  · have he : pf.pstart V r + pf.prb - 1 = pf.pstart V r := by omega
    have he2 : pf.fstart A r + pf.prb - 1 = pf.fstart A r := by omega
    rw [he, he2]
    rw [getD_set_self _ _ _ (by simp [List.length_set]; omega)]
    rw [getD_set_self _ _ _ (by omega)]
    rw [copy_right_padding_bits_testBit_high _ _ _ _ hright (by omega) hj2]
    exact copy_left_padding_bits_testBit _ _ _ _ hleft hj1 hj2
  · have hne : pf.pstart V r + pf.prb - 1 ≠ pf.pstart V r := by omega
    rw [getD_set_ne _ _ _ _ hne]
    rw [getD_set_self _ _ _ (by omega)]
    exact copy_left_padding_bits_testBit _ _ _ _ hleft hj1 hj2

/-- The right padding bits of the patched last row byte are the parent's. -/
theorem viewRowPatched_last_bits (pf : PartialFrame C) (A V : Nat)
    (F P : List Nat) (r j : Nat)
    (hPlen : pf.pstart V r + pf.prb ≤ P.length) (hprb : 1 ≤ pf.prb)
    (hright : pf.rightPad < 8) (hj : j < pf.rightPad) :
    ((viewRowPatched pf A V F P r).getD (pf.pstart V r + pf.prb - 1) 0).testBit j =
      (F.getD (pf.fstart A r + pf.prb - 1) 0).testBit j := by
  unfold viewRowPatched
  rw [getD_set_self _ _ _ (by simp [List.length_set]; omega)]
  exact copy_right_padding_bits_testBit_low _ _ _ _ hright hj


/-- Byte ranges of distinct rows of the aligned region are disjoint in the
parent buffer. -/
theorem fstart_disjoint (pf : PartialFrame C) (A : Nat)
    (hfit : pf.xoff + pf.prb ≤ pf.frb) (r1 r2 b1 b2 : Nat)
    (hb1 : b1 < pf.prb) (hb2 : b2 < pf.prb) (hne : r1 ≠ r2) :
    pf.fstart A r1 + b1 ≠ pf.fstart A r2 + b2 := by
  have key : ∀ q1 q2 c1 c2 : Nat, c1 < pf.frb → c2 < pf.frb → q1 < q2 →
      A + q1 * pf.frb + c1 < A + q2 * pf.frb + c2 := by
    intro q1 q2 c1 c2 hc1 hc2 hq
    have h1 : q1 * pf.frb + c1 < (q1 + 1) * pf.frb := by
      have : (q1 + 1) * pf.frb = q1 * pf.frb + pf.frb := by ring
      omega
    have h2 : (q1 + 1) * pf.frb ≤ q2 * pf.frb := Nat.mul_le_mul_right _ (by omega)
    omega
  unfold PartialFrame.fstart
  rcases Nat.lt_or_ge r1 r2 with h | h
  · have := key (pf.y + r1) (pf.y + r2) (pf.xoff + b1) (pf.xoff + b2)
      (by omega) (by omega) (by omega)
    omega
  · have hlt : r2 < r1 := by omega
    have := key (pf.y + r2) (pf.y + r1) (pf.xoff + b2) (pf.xoff + b1)
      (by omega) (by omega) (by omega)
    omega

/-- The reconciliation fold: parent bytes outside the aligned region's rows
are untouched and the padding bits of the processed rows keep their parent
values, whatever the view buffer holds. -/
theorem sync_fold_invariant (pf : PartialFrame C) (A V : Nat) (F0 P0 : List Nat)
    (hprb : 1 ≤ pf.prb)
    (hfit : pf.xoff + pf.prb ≤ pf.frb)
    (hlenF : A + (pf.y + pf.height) * pf.frb ≤ F0.length)
    (hlenV : V + pf.height * pf.prb ≤ P0.length)
    (hleft : pf.leftPad < 8) (hright : pf.rightPad < 8)
    (hlr : pf.prb = 1 → pf.rightPad ≤ 8 - pf.leftPad)
    (k : Nat) (hk : k ≤ pf.height) :
    ((List.range k).foldl (pf.copy_and_sync_row A V) (F0, P0)).1.length = F0.length ∧
    ((List.range k).foldl (pf.copy_and_sync_row A V) (F0, P0)).2.length = P0.length ∧
    (∀ i : Nat,
      (∀ r : Nat, r < k → ¬(pf.fstart A r ≤ i ∧ i < pf.fstart A r + pf.prb)) →
      ((List.range k).foldl (pf.copy_and_sync_row A V) (F0, P0)).1.getD i 0 =
        F0.getD i 0) ∧
    (∀ r : Nat, r < k →
      (∀ j : Nat, 8 - pf.leftPad ≤ j → j < 8 →
        (((List.range k).foldl (pf.copy_and_sync_row A V) (F0, P0)).1.getD
          (pf.fstart A r) 0).testBit j = (F0.getD (pf.fstart A r) 0).testBit j) ∧
      (∀ j : Nat, j < pf.rightPad →
        (((List.range k).foldl (pf.copy_and_sync_row A V) (F0, P0)).1.getD
          (pf.fstart A r + pf.prb - 1) 0).testBit j =
          (F0.getD (pf.fstart A r + pf.prb - 1) 0).testBit j)) := by
  induction k with
  | zero =>
    refine ⟨rfl, rfl, fun i _ => rfl, fun r hr => absurd hr (by omega)⟩
  | succ k ih =>
    obtain ⟨ihF, ihP, ihOut, ihBits⟩ := ih (by omega)
    rw [List.range_succ, List.foldl_append, List.foldl_cons, List.foldl_nil]
    set SFk := (List.range k).foldl (pf.copy_and_sync_row A V) (F0, P0) with hSFk
    have hpair : SFk = (SFk.1, SFk.2) := rfl
    rw [hpair, copy_and_sync_row_eq]
    have hrowF : pf.fstart A k + pf.prb ≤ F0.length := by
      have h1 : (pf.y + k) * pf.frb + pf.frb = (pf.y + k + 1) * pf.frb := by ring
      have h2 : (pf.y + k + 1) * pf.frb ≤ (pf.y + pf.height) * pf.frb :=
        Nat.mul_le_mul_right _ (by omega)
      unfold PartialFrame.fstart
      omega
    have hrowP : pf.pstart V k + pf.prb ≤ P0.length := by
      have h1 : k * pf.prb + pf.prb = (k + 1) * pf.prb := by ring
      have h2 : (k + 1) * pf.prb ≤ pf.height * pf.prb :=
        Nat.mul_le_mul_right _ (by omega)
      unfold PartialFrame.pstart
      omega
    have houtk : ∀ b : Nat, b < pf.prb →
        (∀ r : Nat, r < k → ¬(pf.fstart A r ≤ pf.fstart A k + b ∧
          pf.fstart A k + b < pf.fstart A r + pf.prb)) := by
      intro b hb r hr hcontra
      exact fstart_disjoint pf A hfit r k (pf.fstart A k + b - pf.fstart A r) b
        (by omega) hb (by omega) (by omega)
    have hreadk : ∀ b : Nat, b < pf.prb →
        SFk.1.getD (pf.fstart A k + b) 0 = F0.getD (pf.fstart A k + b) 0 :=
      fun b hb => ihOut _ (houtk b hb)
    refine ⟨?_, ?_, ?_, ?_⟩
    · rw [copyRange_length]
      exact ihF
    · rw [viewRowPatched_length]
      exact ihP
    · intro i hout
      have houtr : ∀ r : Nat, r < k →
          ¬(pf.fstart A r ≤ i ∧ i < pf.fstart A r + pf.prb) :=
        fun r hr => hout r (by omega)
      have houtk2 : ¬(pf.fstart A k ≤ i ∧ i < pf.fstart A k + pf.prb) :=
        hout k (by omega)
      rw [copyRange_getD_outside _ _ _ _ _ _ (by omega)]
      exact ihOut i houtr
    · intro r hr
      rcases Nat.lt_or_ge r k with hrk | hrk
      · -- previously processed row: row k's copy leaves it alone
        have hout1 : ¬(pf.fstart A k ≤ pf.fstart A r ∧
            pf.fstart A r < pf.fstart A k + pf.prb) := by
          intro hcontra
          exact fstart_disjoint pf A hfit r k 0 (pf.fstart A r - pf.fstart A k)
            hprb (by omega) (by omega) (by omega)
        have hout2 : ¬(pf.fstart A k ≤ pf.fstart A r + pf.prb - 1 ∧
            pf.fstart A r + pf.prb - 1 < pf.fstart A k + pf.prb) := by
          intro hcontra
          exact fstart_disjoint pf A hfit r k (pf.prb - 1)
            (pf.fstart A r + pf.prb - 1 - pf.fstart A k)
            (by omega) (by omega) (by omega) (by omega)
        constructor
        · intro j hj1 hj2
          rw [copyRange_getD_outside _ _ _ _ _ _ (by omega)]
          exact (ihBits r hrk).1 j hj1 hj2
        · intro j hj
          rw [copyRange_getD_outside _ _ _ _ _ _ (by omega)]
          exact (ihBits r hrk).2 j hj
      · -- the newly processed row r = k
        have hrk2 : r = k := by omega
        subst hrk2
        constructor
        · intro j hj1 hj2
          have hc := copyRange_getD_inside (viewRowPatched pf A V SFk.1 SFk.2 r)
            SFk.1 (pf.pstart V r) (pf.fstart A r) pf.prb 0 (by omega) (by omega)
          rw [Nat.add_zero] at hc
          rw [hc, Nat.add_zero]
          rw [viewRowPatched_first_bits pf A V SFk.1 SFk.2 r j (by omega) hprb
            hleft hright hlr hj1 hj2]
          have hrd := hreadk 0 (by omega)
          rw [Nat.add_zero] at hrd
          rw [hrd]
        · intro j hj
          have hc := copyRange_getD_inside (viewRowPatched pf A V SFk.1 SFk.2 r)
            SFk.1 (pf.pstart V r) (pf.fstart A r) pf.prb (pf.prb - 1) (by omega)
            (by omega)
          have he1 : pf.fstart A r + (pf.prb - 1) = pf.fstart A r + pf.prb - 1 := by
            omega
          have he2 : pf.pstart V r + (pf.prb - 1) = pf.pstart V r + pf.prb - 1 := by
            omega
          rw [he1, he2] at hc
          rw [hc]
          rw [viewRowPatched_last_bits pf A V SFk.1 SFk.2 r j (by omega) hprb
            hright hj]
          have hrd := hreadk (pf.prb - 1) (by omega)
          rw [show pf.fstart A r + (pf.prb - 1) = pf.fstart A r + pf.prb - 1 by omega]
            at hrd
          rw [hrd]


/-- set_pixel never changes the buffer length. -/
theorem set_pixel_length (ct : ColorTypeSpec C) (b : List Nat) (w h : Nat)
    (rot : DisplayRotation) (bw : Bool) (px : (Int × Int) × C) :
    (set_pixel ct b w h rot bw px).length = b.length := by
  unfold set_pixel
  by_cases hb : ((rotatePoint w h rot px.1).1 < 0 ∨
      (rotatePoint w h rot px.1).1 ≥ (w : Int) ∨ (rotatePoint w h rot px.1).2 < 0 ∨
      (rotatePoint w h rot px.1).2 ≥ (h : Int))
  · simp [if_pos hb]
  · simp only [if_neg hb]
    by_cases hc : ct.buffer_count = 2 <;> simp [hc, List.length_set]

/-- Folding any sequence of view writes changes only the view buffer's
contents: every geometric field, the parent buffer and the buffer length are
untouched. -/
theorem foldl_set_pixel_fields (ct : ColorTypeSpec C) (pf : PartialFrame C)
    (writes : List ((Int × Int) × C)) :
    (writes.foldl (fun q wr => q.set_pixel ct wr) pf).original_x = pf.original_x ∧
    (writes.foldl (fun q wr => q.set_pixel ct wr) pf).aligned_x = pf.aligned_x ∧
    (writes.foldl (fun q wr => q.set_pixel ct wr) pf).y = pf.y ∧
    (writes.foldl (fun q wr => q.set_pixel ct wr) pf).original_width =
      pf.original_width ∧
    (writes.foldl (fun q wr => q.set_pixel ct wr) pf).aligned_width =
      pf.aligned_width ∧
    (writes.foldl (fun q wr => q.set_pixel ct wr) pf).height = pf.height ∧
    (writes.foldl (fun q wr => q.set_pixel ct wr) pf).full_display_buffer =
      pf.full_display_buffer ∧
    (writes.foldl (fun q wr => q.set_pixel ct wr) pf).full_display_width =
      pf.full_display_width ∧
    (writes.foldl (fun q wr => q.set_pixel ct wr) pf).full_display_size =
      pf.full_display_size ∧
    (writes.foldl (fun q wr => q.set_pixel ct wr) pf).buffer.length =
      pf.buffer.length := by
  induction writes generalizing pf with
  | nil =>
    exact ⟨rfl, rfl, rfl, rfl, rfl, rfl, rfl, rfl, rfl, rfl⟩
  | cons wr rest ih =>
    simp only [List.foldl_cons]
    obtain ⟨i1, i2, i3, i4, i5, i6, i7, i8, i9, i10⟩ := ih (pf.set_pixel ct wr)
    refine ⟨i1, i2, i3, i4, i5, i6, i7, i8, i9, ?_⟩
    rw [i10]
    exact set_pixel_length ct pf.buffer pf.aligned_width pf.height pf.rotation
      pf.bwrbit _

/-- PartialFrame.new at width at least 1, written as the explicit record. -/
theorem new_eq_some (ct : ColorTypeSpec C) (x y width height : Nat)
    (fdb : List Nat) (fdw fds : Nat) (bw : Bool) (hw1 : 1 ≤ width) :
    PartialFrame.new ct x y width height fdb fdw fds bw = some
      { original_x := x
        aligned_x := x &&& 0xFFFFFFF8
        y := y
        original_width := width
        aligned_width := ((x + width - 1) ||| 7) - (x &&& 0xFFFFFFF8) + 1
        height := height
        bwrbit := bw
        buffer := List.replicate (height *
          line_bytes (((x + width - 1) ||| 7) - (x &&& 0xFFFFFFF8) + 1)
            (ct.bits_per_pixel_per_buffer * ct.buffer_count)) 0
        full_display_buffer := fdb
        full_display_width := fdw
        full_display_size := fds
        rotation := DisplayRotation.Rotate0 } := by
  obtain ⟨h1, h2⟩ := new_not_underflow x width hw1
  unfold PartialFrame.new
  simp only [if_neg h1, if_neg h2]



/-- Padding bits of the parent survive the monochrome extraction, whatever
the view buffer holds. -/
theorem mono_extract_padding (pf : PartialFrame Color)
    (hprb : 1 ≤ pf.prb) (hfit : pf.xoff + pf.prb ≤ pf.frb)
    (hlenF : (pf.y + pf.height) * pf.frb ≤ pf.full_display_buffer.length)
    (hlenV : pf.height * pf.prb ≤ pf.buffer.length)
    (hleft : pf.leftPad < 8) (hright : pf.rightPad < 8)
    (hlr : pf.prb = 1 → pf.rightPad ≤ 8 - pf.leftPad)
    (r : Nat) (hrh : r < pf.height) :
    (∀ j : Nat, 8 - pf.leftPad ≤ j → j < 8 →
      (((PartialFrame.get_update_parameters pf).2.full_display_buffer).getD
        (pf.fstart 0 r) 0).testBit j =
      (pf.full_display_buffer.getD (pf.fstart 0 r) 0).testBit j) ∧
    (∀ j : Nat, j < pf.rightPad →
      (((PartialFrame.get_update_parameters pf).2.full_display_buffer).getD
        (pf.fstart 0 r + pf.prb - 1) 0).testBit j =
      (pf.full_display_buffer.getD (pf.fstart 0 r + pf.prb - 1) 0).testBit j) := by
  have hinv := sync_fold_invariant pf 0 0 pf.full_display_buffer pf.buffer hprb hfit
    (by omega) (by omega) hleft hright hlr pf.height (Nat.le_refl _)
  obtain ⟨_, _, _, hbits⟩ := hinv
  unfold PartialFrame.get_update_parameters PartialFrame.copy_and_sync_buffer
  simp only
  exact hbits r hrh

theorem view_padding_mono (parent : List Nat) (x y width height fullW fullH : Nat)
    (writes : List ((Int × Int) × Color))
    (hw1 : 1 ≤ width) (hxw : x + width ≤ fullW) (hW8 : fullW % 8 = 0)
    (h32 : fullW ≤ 2 ^ 32) (hyh : y + height ≤ fullH)
    (hplen : parent.length = fullH * ((fullW + 7) / 8)) :
    ∃ pf0 : PartialFrame Color,
      PartialFrame.new ctColor x y width height parent fullW parent.length false =
        some pf0 ∧
      ∀ r : Nat, r < height →
        (∀ ccol : Nat, ccol < x - pf0.aligned_x →
          (List.getD ((PartialFrame.get_update_parameters
              (writes.foldl (fun q wr => q.set_pixel ctColor wr) pf0)).2.full_display_buffer)
              ((y + r) * ((fullW + 7) / 8) + pf0.aligned_x / 8) 0).testBit (7 - ccol) =
          (List.getD parent ((y + r) * ((fullW + 7) / 8) + pf0.aligned_x / 8) 0).testBit
            (7 - ccol)) ∧
        (∀ b : Nat, b < pf0.aligned_x + pf0.aligned_width - (x + width) →
          (List.getD ((PartialFrame.get_update_parameters
              (writes.foldl (fun q wr => q.set_pixel ctColor wr) pf0)).2.full_display_buffer)
              ((y + r) * ((fullW + 7) / 8) + pf0.aligned_x / 8 +
                (pf0.aligned_width + 7) / 8 - 1) 0).testBit b =
          (List.getD parent ((y + r) * ((fullW + 7) / 8) + pf0.aligned_x / 8 +
                (pf0.aligned_width + 7) / 8 - 1) 0).testBit b) := by
  have hx32 : x < 2 ^ 32 := by omega
  have ha : x &&& 0xFFFFFFF8 = 8 * (x / 8) := land_mask8 x hx32
  have hl := lor_seven (x + width - 1)
  set pfL : PartialFrame Color :=
    { original_x := x
      aligned_x := x &&& 0xFFFFFFF8
      y := y
      original_width := width
      aligned_width := ((x + width - 1) ||| 7) - (x &&& 0xFFFFFFF8) + 1
      height := height
      bwrbit := false
      buffer := List.replicate (height *
        line_bytes (((x + width - 1) ||| 7) - (x &&& 0xFFFFFFF8) + 1)
          (ctColor.bits_per_pixel_per_buffer * ctColor.buffer_count)) 0
      full_display_buffer := parent
      full_display_width := fullW
      full_display_size := parent.length
      rotation := DisplayRotation.Rotate0 } with hpfL
  refine ⟨pfL, new_eq_some ctColor x y width height parent fullW parent.length false hw1,
    ?_⟩
  intro r hr
  obtain ⟨e1, e2, e3, e4, e5, e6, e7, e8, e9, e10⟩ :=
    foldl_set_pixel_fields ctColor pfL writes
  set pf1 := writes.foldl (fun q wr => q.set_pixel ctColor wr) pfL with hpf1
  -- arithmetic values of the literal's fields
  have hax : pfL.aligned_x = 8 * (x / 8) := ha
  have hqp : x / 8 ≤ (x + width - 1) / 8 := by omega
  have haw : pfL.aligned_width = 8 * ((x + width - 1) / 8) + 7 - 8 * (x / 8) + 1 := by
    show ((x + width - 1) ||| 7) - (x &&& 0xFFFFFFF8) + 1 = _
    rw [ha, hl]
  -- field translations for the folded frame
  have hfr : pf1.frb = (fullW + 7) / 8 := by
    unfold PartialFrame.frb
    rw [e8]
  have hpr : pf1.prb = (pfL.aligned_width + 7) / 8 := by
    unfold PartialFrame.prb
    rw [e5]
  have hxo : pf1.xoff = pfL.aligned_x / 8 := by
    unfold PartialFrame.xoff
    rw [e2]
  have hlp : pf1.leftPad = x % 8 := by
    unfold PartialFrame.leftPad
    rw [e1, e2]
    show x - pfL.aligned_x = x % 8
    rw [hax]
    omega
  have hrp : pf1.rightPad = pfL.aligned_x + pfL.aligned_width - (x + width) := by
    unfold PartialFrame.rightPad PartialFrame.leftPad
    rw [e1, e2, e4, e5]
    show pfL.aligned_width - (x - pfL.aligned_x) - width = _
    rw [hax, haw]
    omega
  have hprv : pf1.prb = (x + width - 1) / 8 - x / 8 + 1 := by
    rw [hpr, haw]
    omega
  have hfs : ∀ rr : Nat, pf1.fstart 0 rr =
      (y + rr) * ((fullW + 7) / 8) + pfL.aligned_x / 8 := by
    intro rr
    unfold PartialFrame.fstart
    rw [e3, hfr, hxo]
    show 0 + (y + rr) * ((fullW + 7) / 8) + pfL.aligned_x / 8 = _
    omega
  -- geometric hypotheses of the extraction lemma
  have hq8 : 8 * ((x + width - 1) / 8) + 8 ≤ fullW := by omega
  have hprb1 : 1 ≤ pf1.prb := by omega
  have hfit : pf1.xoff + pf1.prb ≤ pf1.frb := by
    rw [hxo, hprv, hfr, hax]
    omega
  have hlenF : (pf1.y + pf1.height) * pf1.frb ≤ pf1.full_display_buffer.length := by
    rw [e3, e6, hfr, e7]
    show (y + height) * ((fullW + 7) / 8) ≤ parent.length
    rw [hplen]
    exact Nat.mul_le_mul_right _ hyh
  have hlenV : pf1.height * pf1.prb ≤ pf1.buffer.length := by
    rw [e6, hpr, e10]
    show height * ((pfL.aligned_width + 7) / 8) ≤
      (List.replicate (height * line_bytes pfL.aligned_width
        (ctColor.bits_per_pixel_per_buffer * ctColor.buffer_count)) 0).length
    rw [List.length_replicate]
    show height * ((pfL.aligned_width + 7) / 8) ≤
      height * ((pfL.aligned_width * 1 + 7) / 8)
    rw [Nat.mul_one]
  have hleft8 : pf1.leftPad < 8 := by omega
  have hright8 : pf1.rightPad < 8 := by
    rw [hrp, hax, haw]
    omega
  have hlr : pf1.prb = 1 → pf1.rightPad ≤ 8 - pf1.leftPad := by
    intro h1
    rw [hprv] at h1
    rw [hrp, hlp, hax, haw]
    omega
  have hr1 : r < pf1.height := by
    rw [e6]
    exact hr
  obtain ⟨hA, hB⟩ := mono_extract_padding pf1 hprb1 hfit hlenF hlenV hleft8 hright8
    hlr r hr1
  constructor
  · intro ccol hcc
    have hcc8 : ccol < x % 8 := by
      rw [hax] at hcc
      omega
    have hj := hA (7 - ccol) (by rw [hlp]; omega) (by omega)
    rw [hfs r] at hj
    have hpar : pf1.full_display_buffer = parent := by
      rw [e7]
    rw [hpar] at hj
    exact hj
  · intro b hb
    have hbv : b < pf1.rightPad := by
      rw [hrp]
      exact hb
    have hj := hB b hbv
    rw [hfs r, hpr] at hj
    have hpar : pf1.full_display_buffer = parent := by
      rw [e7]
    rw [hpar] at hj
    exact hj


/-- Padding bits of both parent planes survive the tri-color extraction,
whatever the view buffer holds. -/
theorem tri_extract_padding (pf : PartialFrame TriColor)
    (hprb : 1 ≤ pf.prb) (hfit : pf.xoff + pf.prb ≤ pf.frb)
    (hplane : (pf.y + pf.height) * pf.frb ≤ pf.full_display_size / 2)
    (hlenF : pf.full_display_size ≤ pf.full_display_buffer.length)
    (hlenV : pf.height * pf.prb ≤ pf.buffer.length / 2)
    (hleft : pf.leftPad < 8) (hright : pf.rightPad < 8)
    (hlr : pf.prb = 1 → pf.rightPad ≤ 8 - pf.leftPad)
    (r : Nat) (hrh : r < pf.height) :
    (∀ j : Nat, 8 - pf.leftPad ≤ j → j < 8 →
      (((PartialFrame.get_update_parameters_tricolor pf).2.full_display_buffer).getD
        (pf.fstart 0 r) 0).testBit j =
      (pf.full_display_buffer.getD (pf.fstart 0 r) 0).testBit j) ∧
    (∀ j : Nat, j < pf.rightPad →
      (((PartialFrame.get_update_parameters_tricolor pf).2.full_display_buffer).getD
        (pf.fstart 0 r + pf.prb - 1) 0).testBit j =
      (pf.full_display_buffer.getD (pf.fstart 0 r + pf.prb - 1) 0).testBit j) ∧
    (∀ j : Nat, 8 - pf.leftPad ≤ j → j < 8 →
      (((PartialFrame.get_update_parameters_tricolor pf).2.full_display_buffer).getD
        (pf.fstart (pf.full_display_size / 2) r) 0).testBit j =
      (pf.full_display_buffer.getD (pf.fstart (pf.full_display_size / 2) r) 0).testBit
        j) ∧
    (∀ j : Nat, j < pf.rightPad →
      (((PartialFrame.get_update_parameters_tricolor pf).2.full_display_buffer).getD
        (pf.fstart (pf.full_display_size / 2) r + pf.prb - 1) 0).testBit j =
      (pf.full_display_buffer.getD
        (pf.fstart (pf.full_display_size / 2) r + pf.prb - 1) 0).testBit j) := by
  have hrow : ∀ rr : Nat, rr < pf.height →
      pf.fstart 0 rr + pf.prb ≤ (pf.y + pf.height) * pf.frb := by
    intro rr hrr
    have h1 : (pf.y + rr) * pf.frb + pf.frb = (pf.y + rr + 1) * pf.frb := by ring
    have h2 : (pf.y + rr + 1) * pf.frb ≤ (pf.y + pf.height) * pf.frb :=
      Nat.mul_le_mul_right _ (by omega)
    unfold PartialFrame.fstart
    omega
  unfold PartialFrame.get_update_parameters_tricolor PartialFrame.copy_and_sync_buffer
  simp only
  set S1 := (List.range pf.height).foldl (pf.copy_and_sync_row 0 0)
    (pf.full_display_buffer, pf.buffer) with hS1
  set pf1 : PartialFrame TriColor :=
    { pf with full_display_buffer := S1.1, buffer := S1.2 } with hpf1
  have inv1 := sync_fold_invariant pf 0 0 pf.full_display_buffer pf.buffer hprb hfit
    (by omega) (by omega) hleft hright hlr pf.height (Nat.le_refl _)
  obtain ⟨len1F, len1P, out1, bits1⟩ := inv1
  have inv2 := sync_fold_invariant pf1 (pf.full_display_size / 2)
    (pf.buffer.length / 2) S1.1 S1.2 hprb hfit
    (by
      show pf.full_display_size / 2 + (pf.y + pf.height) * pf.frb ≤ S1.1.length
      rw [len1F]
      omega)
    (by
      show pf.buffer.length / 2 + pf.height * pf.prb ≤ S1.2.length
      rw [len1P]
      omega)
    hleft hright hlr pf.height (Nat.le_refl _)
  obtain ⟨len2F, len2P, out2, bits2⟩ := inv2
  have hbelow : ∀ rr : Nat, rr < pf.height → ∀ b : Nat, b < pf.prb →
      pf.fstart 0 rr + b < pf.full_display_size / 2 := by
    intro rr hrr b hb
    have := hrow rr hrr
    omega
  have hout2zero : ∀ i : Nat, i < pf.full_display_size / 2 →
      (∀ rr : Nat, rr < pf.height →
        ¬(pf1.fstart (pf.full_display_size / 2) rr ≤ i ∧
          i < pf1.fstart (pf.full_display_size / 2) rr + pf1.prb)) := by
    intro i hi rr hrr hcontra
    have : pf.full_display_size / 2 ≤ pf1.fstart (pf.full_display_size / 2) rr := by
      unfold PartialFrame.fstart
      omega
    omega
  have habove : ∀ i : Nat, pf.full_display_size / 2 ≤ i →
      (∀ rr : Nat, rr < pf.height →
        ¬(pf.fstart 0 rr ≤ i ∧ i < pf.fstart 0 rr + pf.prb)) := by
    intro i hi rr hrr hcontra
    have h1 := hrow rr hrr
    omega
  have hfs2 : ∀ rr : Nat, pf1.fstart (pf.full_display_size / 2) rr =
      pf.fstart (pf.full_display_size / 2) rr := fun rr => rfl
  refine ⟨?_, ?_, ?_, ?_⟩
  · intro j hj1 hj2
    have hi0 : pf.fstart 0 r < pf.full_display_size / 2 := by
      have := hbelow r hrh 0 hprb
      omega
    rw [out2 (pf.fstart 0 r) (hout2zero _ hi0)]
    exact (bits1 r hrh).1 j hj1 hj2
  · intro j hj
    have hi0 : pf.fstart 0 r + pf.prb - 1 < pf.full_display_size / 2 := by
      have := hbelow r hrh (pf.prb - 1) (by omega)
      omega
    rw [out2 _ (hout2zero _ hi0)]
    exact (bits1 r hrh).2 j hj
  · intro j hj1 hj2
    have hfin := (bits2 r hrh).1 j hj1 hj2
    rw [hfs2 r] at hfin
    rw [hfin]
    rw [out1 _ (habove _ (by
      unfold PartialFrame.fstart
      omega) )]
  · intro j hj
    have hfin := (bits2 r hrh).2 j hj
    have hpr1 : pf1.prb = pf.prb := rfl
    rw [hfs2 r, hpr1] at hfin
    rw [hfin]
    have hge : pf.full_display_size / 2 ≤
        pf.fstart (pf.full_display_size / 2) r + pf.prb - 1 := by
      unfold PartialFrame.fstart
      omega
    rw [out1 _ (habove _ hge)]


theorem view_padding_tricolor (parentT : List Nat) (x y width height fullW fullH : Nat) (bwr : Bool)
    (writes : List ((Int × Int) × TriColor))
    (hw1 : 1 ≤ width) (hxw : x + width ≤ fullW) (hW8 : fullW % 8 = 0)
    (h32 : fullW ≤ 2 ^ 32) (hyh : y + height ≤ fullH)
    (hplen : parentT.length = fullH * line_bytes fullW 2) :
    ∃ pf0 : PartialFrame TriColor,
      PartialFrame.new ctTriColor x y width height parentT fullW parentT.length bwr =
        some pf0 ∧
      ∀ r : Nat, r < height → ∀ plane : Nat, plane ∈ [0, parentT.length / 2] →
        (∀ ccol : Nat, ccol < x - pf0.aligned_x →
          (List.getD ((PartialFrame.get_update_parameters_tricolor
              (writes.foldl (fun q wr => q.set_pixel ctTriColor wr) pf0)).2.full_display_buffer)
              (plane + (y + r) * ((fullW + 7) / 8) + pf0.aligned_x / 8) 0).testBit
            (7 - ccol) =
          (List.getD parentT (plane + (y + r) * ((fullW + 7) / 8) + pf0.aligned_x / 8)
              0).testBit (7 - ccol)) ∧
        (∀ b : Nat, b < pf0.aligned_x + pf0.aligned_width - (x + width) →
          (List.getD ((PartialFrame.get_update_parameters_tricolor
              (writes.foldl (fun q wr => q.set_pixel ctTriColor wr) pf0)).2.full_display_buffer)
              (plane + (y + r) * ((fullW + 7) / 8) + pf0.aligned_x / 8 +
                (pf0.aligned_width + 7) / 8 - 1) 0).testBit b =
          (List.getD parentT (plane + (y + r) * ((fullW + 7) / 8) + pf0.aligned_x / 8 +
                (pf0.aligned_width + 7) / 8 - 1) 0).testBit b) := by
  have hx32 : x < 2 ^ 32 := by omega
  have ha : x &&& 0xFFFFFFF8 = 8 * (x / 8) := land_mask8 x hx32
  have hl := lor_seven (x + width - 1)
  set pfL : PartialFrame TriColor :=
    { original_x := x
      aligned_x := x &&& 0xFFFFFFF8
      y := y
      original_width := width
      aligned_width := ((x + width - 1) ||| 7) - (x &&& 0xFFFFFFF8) + 1
      height := height
      bwrbit := bwr
      buffer := List.replicate (height *
        line_bytes (((x + width - 1) ||| 7) - (x &&& 0xFFFFFFF8) + 1)
          (ctTriColor.bits_per_pixel_per_buffer * ctTriColor.buffer_count)) 0
      full_display_buffer := parentT
      full_display_width := fullW
      full_display_size := parentT.length
      rotation := DisplayRotation.Rotate0 } with hpfL
  refine ⟨pfL,
    new_eq_some ctTriColor x y width height parentT fullW parentT.length bwr hw1, ?_⟩
  intro r hr plane hplane
  obtain ⟨e1, e2, e3, e4, e5, e6, e7, e8, e9, e10⟩ :=
    foldl_set_pixel_fields ctTriColor pfL writes
  set pf1 := writes.foldl (fun q wr => q.set_pixel ctTriColor wr) pfL with hpf1
  have hax : pfL.aligned_x = 8 * (x / 8) := ha
  have hqp : x / 8 ≤ (x + width - 1) / 8 := by omega
  have haw : pfL.aligned_width = 8 * ((x + width - 1) / 8) + 7 - 8 * (x / 8) + 1 := by
    show ((x + width - 1) ||| 7) - (x &&& 0xFFFFFFF8) + 1 = _
    rw [ha, hl]
  have hawmod : pfL.aligned_width % 8 = 0 := by
    rw [haw]
    omega
  have hfr : pf1.frb = (fullW + 7) / 8 := by
    unfold PartialFrame.frb
    rw [e8]
  have hpr : pf1.prb = (pfL.aligned_width + 7) / 8 := by
    unfold PartialFrame.prb
    rw [e5]
  have hxo : pf1.xoff = pfL.aligned_x / 8 := by
    unfold PartialFrame.xoff
    rw [e2]
  have hlp : pf1.leftPad = x % 8 := by
    unfold PartialFrame.leftPad
    rw [e1, e2]
    show x - pfL.aligned_x = x % 8
    rw [hax]
    omega
  have hrp : pf1.rightPad = pfL.aligned_x + pfL.aligned_width - (x + width) := by
    unfold PartialFrame.rightPad PartialFrame.leftPad
    rw [e1, e2, e4, e5]
    show pfL.aligned_width - (x - pfL.aligned_x) - width = _
    rw [hax, haw]
    omega
  have hprv : pf1.prb = (x + width - 1) / 8 - x / 8 + 1 := by
    rw [hpr, haw]
    omega
  have hfs : ∀ B rr : Nat, pf1.fstart B rr =
      B + (y + rr) * ((fullW + 7) / 8) + pfL.aligned_x / 8 := by
    intro B rr
    unfold PartialFrame.fstart
    rw [e3, hfr, hxo]
  have hq8 : 8 * ((x + width - 1) / 8) + 8 ≤ fullW := by omega
  have hprb1 : 1 ≤ pf1.prb := by omega
  have hfit : pf1.xoff + pf1.prb ≤ pf1.frb := by
    rw [hxo, hprv, hfr, hax]
    omega
  have hlbW : line_bytes fullW 2 = 2 * ((fullW + 7) / 8) := by
    unfold line_bytes
    omega
  have hpl2 : parentT.length = 2 * (fullH * ((fullW + 7) / 8)) := by
    rw [hplen, hlbW]
    ring
  have hsz : pf1.full_display_size = parentT.length := by
    rw [e9]
  have hplane2 : (pf1.y + pf1.height) * pf1.frb ≤ pf1.full_display_size / 2 := by
    rw [e3, e6, hfr, hsz, hpl2]
    show (y + height) * ((fullW + 7) / 8) ≤ 2 * (fullH * ((fullW + 7) / 8)) / 2
    rw [Nat.mul_div_cancel_left _ (by norm_num : (0:Nat) < 2)]
    exact Nat.mul_le_mul_right _ hyh
  have hlenF : pf1.full_display_size ≤ pf1.full_display_buffer.length := by
    rw [hsz, e7]
  have hbl : pf1.buffer.length = 2 * (height * ((pfL.aligned_width + 7) / 8)) := by
    rw [e10]
    show (List.replicate (height * line_bytes pfL.aligned_width
      (ctTriColor.bits_per_pixel_per_buffer * ctTriColor.buffer_count)) 0).length = _
    rw [List.length_replicate]
    show height * line_bytes pfL.aligned_width 2 = _
    have hlb2 : line_bytes pfL.aligned_width 2 = 2 * ((pfL.aligned_width + 7) / 8) := by
      unfold line_bytes
      omega
    rw [hlb2]
    ring
  have hlenV : pf1.height * pf1.prb ≤ pf1.buffer.length / 2 := by
    rw [e6, hpr, hbl, Nat.mul_div_cancel_left _ (by norm_num : (0:Nat) < 2)]
  have hleft8 : pf1.leftPad < 8 := by omega
  have hright8 : pf1.rightPad < 8 := by
    rw [hrp, hax, haw]
    omega
  have hlr : pf1.prb = 1 → pf1.rightPad ≤ 8 - pf1.leftPad := by
    intro h1
    rw [hprv] at h1
    rw [hrp, hlp, hax, haw]
    omega
  have hr1 : r < pf1.height := by
    rw [e6]
    exact hr
  obtain ⟨hA0, hB0, hA1, hB1⟩ := tri_extract_padding pf1 hprb1 hfit hplane2 hlenF
    hlenV hleft8 hright8 hlr r hr1
  have hpar : pf1.full_display_buffer = parentT := by
    rw [e7]
  simp only [List.mem_cons, List.mem_singleton, List.not_mem_nil, or_false] at hplane
  rcases hplane with hpl | hpl
  · subst hpl
    constructor
    · intro ccol hcc
      have hcc8 : ccol < x % 8 := by
        rw [hax] at hcc
        omega
      have hj := hA0 (7 - ccol) (by rw [hlp]; omega) (by omega)
      rw [hfs 0, hpar] at hj
      rw [show (0 : Nat) + (y + r) * ((fullW + 7) / 8) + pfL.aligned_x / 8 =
        0 + (y + r) * ((fullW + 7) / 8) + pfL.aligned_x / 8 from rfl] at hj
      have hidx : (0 : Nat) + (y + r) * ((fullW + 7) / 8) + pfL.aligned_x / 8 =
          0 + (y + r) * ((fullW + 7) / 8) + pfL.aligned_x / 8 := rfl
      exact hj
    · intro b hb
      have hbv : b < pf1.rightPad := by
        rw [hrp]
        exact hb
      have hj := hB0 b hbv
      rw [hfs 0, hpr, hpar] at hj
      exact hj
  · subst hpl
    constructor
    · intro ccol hcc
      have hcc8 : ccol < x % 8 := by
        rw [hax] at hcc
        omega
      have hj := hA1 (7 - ccol) (by rw [hlp]; omega) (by omega)
      rw [hfs, hpar, hsz] at hj
      exact hj
    · intro b hb
      have hbv : b < pf1.rightPad := by
        rw [hrp]
        exact hb
      have hj := hB1 b hbv
      rw [hfs, hpr, hpar, hsz] at hj
      exact hj



/-- C1: a PartialFrame view constructed over a byte-misaligned region keeps every
parent padding bit intact through any sequence of set_pixel writes followed by
reconciliation: in each plane of the extracted full-frame buffer, the left-padding
bits (parent columns aligned_x .. x-1, i.e. high bits 7-ccol of the first view byte
of each covered row) and the right-padding bits (low bits of the last view byte)
equal the parent's original bits, for both the monochrome and the tri-color
extraction paths. -/
theorem c1_partial_view_padding_bits_preserved :
    (∀ (parent : List Nat) (x y width height fullW fullH : Nat)
        (writes : List ((Int × Int) × Color)),
      1 ≤ width → x + width ≤ fullW → fullW % 8 = 0 →
      fullW ≤ 2 ^ 32 → y + height ≤ fullH →
      parent.length = fullH * ((fullW + 7) / 8) →
      ∃ pf0 : PartialFrame Color,
        PartialFrame.new ctColor x y width height parent fullW parent.length false =
          some pf0 ∧
        ∀ r : Nat, r < height →
          (∀ ccol : Nat, ccol < x - pf0.aligned_x →
            (List.getD ((PartialFrame.get_update_parameters
                (writes.foldl (fun q wr => q.set_pixel ctColor wr) pf0)).2.full_display_buffer)
                ((y + r) * ((fullW + 7) / 8) + pf0.aligned_x / 8) 0).testBit (7 - ccol) =
            (List.getD parent ((y + r) * ((fullW + 7) / 8) + pf0.aligned_x / 8) 0).testBit
              (7 - ccol)) ∧
          (∀ b : Nat, b < pf0.aligned_x + pf0.aligned_width - (x + width) →
            (List.getD ((PartialFrame.get_update_parameters
                (writes.foldl (fun q wr => q.set_pixel ctColor wr) pf0)).2.full_display_buffer)
                ((y + r) * ((fullW + 7) / 8) + pf0.aligned_x / 8 +
                  (pf0.aligned_width + 7) / 8 - 1) 0).testBit b =
            (List.getD parent ((y + r) * ((fullW + 7) / 8) + pf0.aligned_x / 8 +
                  (pf0.aligned_width + 7) / 8 - 1) 0).testBit b)) ∧
    (∀ (parentT : List Nat) (x y width height fullW fullH : Nat) (bwr : Bool)
        (writes : List ((Int × Int) × TriColor)),
      1 ≤ width → x + width ≤ fullW → fullW % 8 = 0 →
      fullW ≤ 2 ^ 32 → y + height ≤ fullH →
      parentT.length = fullH * line_bytes fullW 2 →
      ∃ pf0 : PartialFrame TriColor,
        PartialFrame.new ctTriColor x y width height parentT fullW parentT.length bwr =
          some pf0 ∧
        ∀ r : Nat, r < height → ∀ plane : Nat, plane ∈ [0, parentT.length / 2] →
          (∀ ccol : Nat, ccol < x - pf0.aligned_x →
            (List.getD ((PartialFrame.get_update_parameters_tricolor
                (writes.foldl (fun q wr => q.set_pixel ctTriColor wr) pf0)).2.full_display_buffer)
                (plane + (y + r) * ((fullW + 7) / 8) + pf0.aligned_x / 8) 0).testBit
              (7 - ccol) =
            (List.getD parentT (plane + (y + r) * ((fullW + 7) / 8) + pf0.aligned_x / 8)
                0).testBit (7 - ccol)) ∧
          (∀ b : Nat, b < pf0.aligned_x + pf0.aligned_width - (x + width) →
            (List.getD ((PartialFrame.get_update_parameters_tricolor
                (writes.foldl (fun q wr => q.set_pixel ctTriColor wr) pf0)).2.full_display_buffer)
                (plane + (y + r) * ((fullW + 7) / 8) + pf0.aligned_x / 8 +
                  (pf0.aligned_width + 7) / 8 - 1) 0).testBit b =
            (List.getD parentT (plane + (y + r) * ((fullW + 7) / 8) + pf0.aligned_x / 8 +
                  (pf0.aligned_width + 7) / 8 - 1) 0).testBit b)) :=
  ⟨view_padding_mono, view_padding_tricolor⟩

/-- Witness for C1: concrete 16x2 all-ones monochrome parent, view at x = 3 of
width 12 (left padding 3, right padding 1), one white pixel written, both padding
regions of the extracted buffer still read as ones. -/
theorem c1_partial_view_padding_bits_preserved_witness :
    ∃ pf0 : PartialFrame Color,
      PartialFrame.new ctColor 3 0 12 2 [255, 255, 255, 255] 16
          (List.length [255, 255, 255, 255]) false = some pf0 ∧
      ∀ r : Nat, r < 2 →
        (∀ ccol : Nat, ccol < 3 - pf0.aligned_x →
          (List.getD ((PartialFrame.get_update_parameters
              (List.foldl (fun q wr => q.set_pixel ctColor wr) pf0
                [(((0 : Int), (0 : Int)), Color.White)])).2.full_display_buffer)
              ((0 + r) * ((16 + 7) / 8) + pf0.aligned_x / 8) 0).testBit (7 - ccol) =
          (List.getD [255, 255, 255, 255]
              ((0 + r) * ((16 + 7) / 8) + pf0.aligned_x / 8) 0).testBit (7 - ccol)) ∧
        (∀ b : Nat, b < pf0.aligned_x + pf0.aligned_width - (3 + 12) →
          (List.getD ((PartialFrame.get_update_parameters
              (List.foldl (fun q wr => q.set_pixel ctColor wr) pf0
                [(((0 : Int), (0 : Int)), Color.White)])).2.full_display_buffer)
              ((0 + r) * ((16 + 7) / 8) + pf0.aligned_x / 8 +
                (pf0.aligned_width + 7) / 8 - 1) 0).testBit b =
          (List.getD [255, 255, 255, 255]
              ((0 + r) * ((16 + 7) / 8) + pf0.aligned_x / 8 +
                (pf0.aligned_width + 7) / 8 - 1) 0).testBit b) :=
  c1_partial_view_padding_bits_preserved.1 [255, 255, 255, 255] 3 0 12 2 16 2
    [(((0 : Int), (0 : Int)), Color.White)] (by decide) (by decide) (by decide)
    (by norm_num) (by decide) (by decide)

end EpdWaveshare
